import Mathlib

/-!
Verification of the aelita merge-queue pipeline engine.

This file embeds the per-pipeline event-driven state machine of
`src/pipeline/mod.rs` together with the durable queue/running/pending
store semantics of `src/db/sqlite.rs` (restricted to a single pipeline,
since the engine asserts every event's pipeline id equals its own and the
store keys every relation by pipeline id).

The embedding is parametric over the abstract pull-request identity `P`,
commit identity `C` and remote descriptor `R`, mirroring how the Rust
engine is generic over `P: Pr` (with `type C` and `fn remote`) and
`C: Commit` (with `type Remote`); the `remote` capability of `Pr` is
passed explicitly as a function `P → R`.
-/

set_option linter.unusedSectionVars false

namespace Aelita

/-- A queued approval: `db::QueueEntry { pr, commit, message }`. -/
structure QueueEntry (P C : Type) where
  pr : P
  commit : C
  message : String
deriving DecidableEq, Repr

/-- The at-most-one in-flight candidate:
`db::RunningEntry { pr, pull_commit, merge_commit, message, canceled, built }`. -/
structure RunningEntry (P C : Type) where
  pr : P
  pull_commit : C
  merge_commit : Option C
  message : String
  canceled : Bool
  built : Bool
deriving DecidableEq, Repr

/-- A tracked open pull request: `db::PendingEntry { pr, commit }`. -/
structure PendingEntry (P C : Type) where
  pr : P
  commit : C
deriving DecidableEq, Repr

/-- One pipeline's slice of the persistent store: the `queue` relation in
`id` order, the at-most-one `running` row, and the `pending` relation. -/
structure Db (P C : Type) where
  queue : List (QueueEntry P C)
  running : Option (RunningEntry P C)
  pending : List (PendingEntry P C)
deriving DecidableEq, Repr

/-- `ui::Status` variants surfaced to the UI, with their payloads as used by
the pipeline engine (the `Approved` variant exists but is never emitted). -/
inductive Status (C : Type) where
  | Approved (pull : C)
  | StartingBuild (pull merge : C)
  | Testing (pull merge : C) (url : Option String)
  | Success (pull merge : C) (url : Option String)
  | Failure (pull merge : C) (url : Option String)
  | Unmergeable (pull : C)
  | Unmoveable (pull merge : C)
  | Invalidated
  | NoCommit
  | Completed (pull merge : C)
deriving DecidableEq, Repr

/-- Outbound commands of the engine: `Ci::start_build`, `Ui::send_result`,
`Vcs::merge_to_staging` and `Vcs::move_staging_to_master`. -/
inductive Cmd (P C R : Type) where
  | start_build (commit : C)
  | send_result (pr : P) (status : Status C)
  | merge_to_staging (commit : C) (message : String) (remote : R)
  | move_staging_to_master (commit : C)
deriving DecidableEq, Repr

/-- Inbound events, the union of `ui::Event`, `vcs::Event` and `ci::Event`
(with the pipeline id dropped: the engine only asserts it equals its own). -/
inductive Event (P C : Type) where
  | Approved (pr : P) (commit : Option C) (message : String)
  | Opened (pr : P) (commit : C)
  | Changed (pr : P) (commit : C)
  | Closed (pr : P)
  | Canceled (pr : P)
  | MergedToStaging (pull_commit merge_commit : C)
  | FailedMergeToStaging (pull_commit : C)
  | BuildStarted (building_commit : C) (url : Option String)
  | BuildFailed (built_commit : C) (url : Option String)
  | BuildSucceeded (built_commit : C) (url : Option String)
  | FailedMoveToMaster (merge_commit : C)
  | MovedToMaster (merge_commit : C)
deriving DecidableEq, Repr

variable {P C R : Type} [DecidableEq P] [DecidableEq C]

/-- `Db::push_queue`: `INSERT INTO queue ...` — append at the tail. -/
def Db.push_queue (db : Db P C) (entry : QueueEntry P C) : Db P C :=
  { db with queue := db.queue ++ [entry] }

/-- `Db::pop_queue`: select the head row (lowest `id`), delete it, return it. -/
def Db.pop_queue (db : Db P C) : Db P C × Option (QueueEntry P C) :=
  match db.queue with
  | [] => (db, none)
  | x :: xs => ({ db with queue := xs }, some x)

/-- `Db::put_running`: `REPLACE INTO running ...` — upsert the single row. -/
def Db.put_running (db : Db P C) (entry : RunningEntry P C) : Db P C :=
  { db with running := some entry }

/-- `Db::take_running`: read the running row and delete it, atomically. -/
def Db.take_running (db : Db P C) : Db P C × Option (RunningEntry P C) :=
  ({ db with running := none }, db.running)

/-- `Db::peek_running`: read the running row without clearing it. -/
def Db.peek_running (db : Db P C) : Option (RunningEntry P C) :=
  db.running

/-- First pending entry for `pr`, as returned by
`SELECT ... FROM pending WHERE pr = ?` (first row). -/
def find_pending : List (PendingEntry P C) → P → Option (PendingEntry P C)
  | [], _ => none
  | p :: ps, pr => if p.pr = pr then some p else find_pending ps pr

/-- Delete every pending row for `pr`:
`DELETE FROM pending WHERE pr = ?`. -/
def remove_pending_pr : List (PendingEntry P C) → P → List (PendingEntry P C)
  | [], _ => []
  | p :: ps, pr =>
    if p.pr = pr then remove_pending_pr ps pr
    else p :: remove_pending_pr ps pr

/-- Remove the first pending row for `pr` (the row `take_pending_by_pr`
selects and deletes by its `id`). -/
def remove_first_pending : List (PendingEntry P C) → P → List (PendingEntry P C)
  | [], _ => []
  | p :: ps, pr => if p.pr = pr then ps else p :: remove_first_pending ps pr

/-- `SqliteDb::add_pending`: one transaction doing
`DELETE FROM pending WHERE pr = ?` then `INSERT INTO pending ...`. -/
def Db.add_pending (db : Db P C) (entry : PendingEntry P C) : Db P C :=
  { db with pending := remove_pending_pr db.pending entry.pr ++ [entry] }

/-- `MemoryDb::add_pending` (the in-memory store of the pipeline tests):
overwrite the first entry with the same `pr` in place, else push at the end. -/
def mem_add_pending : List (PendingEntry P C) → PendingEntry P C → List (PendingEntry P C)
  | [], entry => [entry]
  | p :: ps, entry =>
    if p.pr = entry.pr then entry :: ps else p :: mem_add_pending ps entry

/-- `Db::peek_pending_by_pr`: return the pending entry for `pr`, if any. -/
def Db.peek_pending_by_pr (db : Db P C) (pr : P) : Option (PendingEntry P C) :=
  find_pending db.pending pr

/-- `Db::take_pending_by_pr`: return the pending entry for `pr` and delete it. -/
def Db.take_pending_by_pr (db : Db P C) (pr : P) :
    Db P C × Option (PendingEntry P C) :=
  ({ db with pending := remove_first_pending db.pending pr },
   find_pending db.pending pr)

/-- Delete every queue row for `pr`: `DELETE FROM queue WHERE pr = ?`. -/
def remove_queue_pr : List (QueueEntry P C) → P → List (QueueEntry P C)
  | [], _ => []
  | q :: qs, pr =>
    if q.pr = pr then remove_queue_pr qs pr else q :: remove_queue_pr qs pr

/-- Whether some queue row has this `pr`. -/
def queue_has_pr : List (QueueEntry P C) → P → Bool
  | [], _ => false
  | q :: qs, pr => if q.pr = pr then true else queue_has_pr qs pr

/-- `Db::cancel_by_pr`: set `canceled = 1` on the running row whose `pr`
matches, and delete every queue row with that `pr`. -/
def Db.cancel_by_pr (db : Db P C) (pr : P) : Db P C :=
  { db with
    queue := remove_queue_pr db.queue pr
    running :=
      match db.running with
      | some r => some (if r.pr = pr then { r with canceled := true } else r)
      | none => none }

/-- Delete every queue row for `pr` whose commit differs:
`DELETE FROM queue WHERE pr = ? AND pull_commit <> ?`. -/
def remove_queue_pr_diff : List (QueueEntry P C) → P → C → List (QueueEntry P C)
  | [], _, _ => []
  | q :: qs, pr, commit =>
    if q.pr = pr ∧ ¬(q.commit = commit) then remove_queue_pr_diff qs pr commit
    else q :: remove_queue_pr_diff qs pr commit

/-- `Db::cancel_by_pr_different_commit`: cancel the running row iff its `pr`
matches and its `pull_commit` differs; delete queue rows with that `pr` and a
different commit; report whether any row was affected. -/
def Db.cancel_by_pr_different_commit (db : Db P C) (pr : P) (commit : C) :
    Db P C × Bool :=
  let running_hit : Bool :=
    match db.running with
    | some r => decide (r.pr = pr ∧ ¬(r.pull_commit = commit))
    | none => false
  let running' :=
    match db.running with
    | some r =>
      some (if r.pr = pr ∧ ¬(r.pull_commit = commit)
            then { r with canceled := true } else r)
    | none => none
  let queue' := remove_queue_pr_diff db.queue pr commit
  let queue_hit : Bool := decide (¬(queue'.length = db.queue.length))
  ({ db with queue := queue', running := running' }, queue_hit || running_hit)

/-- The body of `Pipeline::handle_event`'s `match event` statement: one
inbound event interpreted against the store, returning the mutated store and
the outbound commands emitted, in emission order.  (`warn!` logging is not
modelled; branches that only warn emit nothing.) -/
def handle_event_core (_remote : P → R) (db : Db P C) (event : Event P C) :
    Db P C × List (Cmd P C R) :=
  match event with
  | .Approved pr commit message =>
    let resolved : Option C × List (Cmd P C R) :=
      match commit, (db.peek_pending_by_pr pr).map (fun p => p.commit) with
      | some reviewed, some current =>
        if ¬(reviewed = current) then (none, [.send_result pr .Invalidated])
        else (some reviewed, [])
      | some reviewed, none => (some reviewed, [])
      | none, some current => (some current, [])
      | none, none => (none, [.send_result pr .NoCommit])
    match resolved with
    | (some commit, cmds) =>
      ((db.cancel_by_pr pr).push_queue ⟨pr, commit, message⟩, cmds)
    | (none, cmds) => (db, cmds)
  | .Opened pr commit =>
    (db.add_pending ⟨pr, commit⟩, [])
  | .Changed pr commit =>
    let (db1, canceled) := db.cancel_by_pr_different_commit pr commit
    let cmds : List (Cmd P C R) :=
      if canceled = true then [.send_result pr .Invalidated] else []
    (db1.add_pending ⟨pr, commit⟩, cmds)
  | .Closed pr =>
    let db1 := (db.take_pending_by_pr pr).1
    (db1.cancel_by_pr pr, [])
  | .Canceled pr =>
    (db.cancel_by_pr pr, [])
  | .MergedToStaging pull_commit merge_commit =>
    let (db1, taken) := db.take_running
    match taken with
    | some running =>
      if ¬(running.pull_commit = pull_commit) then (db1, [])
      else if running.merge_commit.isSome then (db1, [])
      else if running.canceled = true then (db1, [])
      else if running.built = true then (db1, [])
      else
        let running := { running with merge_commit := some merge_commit }
        (db1.put_running running,
         [.start_build merge_commit,
          .send_result running.pr (.StartingBuild pull_commit merge_commit)])
    | none => (db1, [])
  | .FailedMergeToStaging pull_commit =>
    let (db1, taken) := db.take_running
    match taken with
    | some running =>
      if ¬(running.pull_commit = pull_commit) then (db1, [])
      else if running.merge_commit.isSome then (db1, [])
      else if running.built = true then (db1, [])
      else if running.canceled = true then (db1, [])
      else (db1, [.send_result running.pr (.Unmergeable pull_commit)])
    | none => (db1, [])
  | .BuildStarted building_commit url =>
    match db.peek_running with
    | some running =>
      match running.merge_commit with
      | some merged_commit =>
        if ¬(merged_commit = building_commit) then (db, [])
        else if running.canceled = true then (db, [])
        else if running.built = true then (db, [])
        else
          (db, [.send_result running.pr
                  (.Testing running.pull_commit building_commit url)])
      | none => (db, [])
    | none => (db, [])
  | .BuildFailed built_commit url =>
    let (db1, taken) := db.take_running
    match taken with
    | some running =>
      match running.merge_commit with
      | some merged_commit =>
        if ¬(merged_commit = built_commit) then (db1, [])
        else if running.canceled = true then (db1, [])
        else if running.built = true then (db1.put_running running, [])
        else
          (db1, [.send_result running.pr
                   (.Failure running.pull_commit merged_commit url)])
      | none => (db1, [])
    | none => (db1, [])
  | .BuildSucceeded built_commit url =>
    let (db1, taken) := db.take_running
    match taken with
    | some running =>
      match running.merge_commit with
      | some merged_commit =>
        if ¬(merged_commit = built_commit) then (db1, [])
        else if running.canceled = true then (db1, [])
        else if running.built = true then (db1.put_running running, [])
        else
          (db1.put_running { running with built := true },
           [.move_staging_to_master merged_commit,
            .send_result running.pr
              (.Success running.pull_commit merged_commit url)])
      | none => (db1, [])
    | none => (db1, [])
  | .FailedMoveToMaster merge_commit =>
    let (db1, taken) := db.take_running
    match taken with
    | some running =>
      match running.merge_commit with
      | some running_merge_commit =>
        if ¬(running_merge_commit = merge_commit) then (db1, [])
        else if running.canceled = true then (db1, [])
        else if ¬(running.built = true) then (db1, [])
        else
          (db1, [.send_result running.pr
                   (.Unmoveable running.pull_commit running_merge_commit)])
      | none => (db1, [])
    | none => (db1, [])
  | .MovedToMaster merge_commit =>
    let (db1, taken) := db.take_running
    match taken with
    | some running =>
      match running.merge_commit with
      | some running_merge_commit =>
        if ¬(running_merge_commit = merge_commit) then (db1, [])
        else if running.canceled = true then (db1, [])
        else if ¬(running.built = true) then (db1, [])
        else
          (db1, [.send_result running.pr
                   (.Completed running.pull_commit running_merge_commit)])
      | none => (db1, [])
    | none => (db1, [])

/-- `Pipeline::handle_event`: the event's own handling followed by the
promotion rule — if no entry is running, pop the queue head, emit
`merge_to_staging` for it, and install it as the running entry. -/
def handle_event (remote : P → R) (db : Db P C) (event : Event P C) :
    Db P C × List (Cmd P C R) :=
  let (db1, cmds) := handle_event_core remote db event
  match db1.peek_running with
  | some _ => (db1, cmds)
  | none =>
    match db1.pop_queue with
    | (db2, some next) =>
      (db2.put_running
        { pr := next.pr
          pull_commit := next.commit
          merge_commit := none
          message := next.message
          canceled := false
          built := false },
       cmds ++ [.merge_to_staging next.commit next.message (remote next.pr)])
    | (db2, none) => (db2, cmds)

/-- Invariant I4 (merge monotonicity) as a boolean check on the store:
a `built` running entry has its `merge_commit` set. -/
def built_implies_merge (db : Db P C) : Bool :=
  match db.running with
  | some r => !r.built || r.merge_commit.isSome
  | none => true

/-- Whether a command is a UI status notification (`Ui::send_result`). -/
def Cmd.is_status : Cmd P C R → Bool
  | .send_result _ _ => true
  | _ => false

/-- A VCS or CI event addressed to the running entry `r`: its commit payload
matches `r`'s pull commit (for staging-merge events) or `r`'s merge commit
(for build and move events). -/
def addressed_to (r : RunningEntry P C) : Event P C → Prop
  | .MergedToStaging pull_commit _ => r.pull_commit = pull_commit
  | .FailedMergeToStaging pull_commit => r.pull_commit = pull_commit
  | .BuildStarted c _ => r.merge_commit = some c
  | .BuildFailed c _ => r.merge_commit = some c
  | .BuildSucceeded c _ => r.merge_commit = some c
  | .FailedMoveToMaster c => r.merge_commit = some c
  | .MovedToMaster c => r.merge_commit = some c
  | _ => False

/-- The guard conjunction under which the `FailedMergeToStaging` arm reaches
its already-built warning branch: a running entry taken, its pull commit
matching, its `merge_commit` not yet set, and `built` true. -/
def failed_merge_built_branch (db : Db P C) (pull_commit : C) : Bool :=
  match db.running with
  | some r =>
    decide (r.pull_commit = pull_commit) && !r.merge_commit.isSome && r.built
  | none => false

/-! ### Helper lemmas about the store operations -/

theorem remove_queue_pr_no_pr (l : List (QueueEntry P C)) (pr : P) :
    queue_has_pr (remove_queue_pr l pr) pr = false := by
  induction l with
  | nil => rfl
  | cons q qs ih =>
    by_cases h : q.pr = pr <;> simp [remove_queue_pr, queue_has_pr, h, ih]

theorem find_pending_some {l : List (PendingEntry P C)} {pr : P}
    {p : PendingEntry P C} (h : find_pending l pr = some p) :
    p ∈ l ∧ p.pr = pr := by
  induction l with
  | nil => simp [find_pending] at h
  | cons q qs ih =>
    by_cases hq : q.pr = pr
    · simp [find_pending, hq] at h
      subst h
      exact ⟨List.mem_cons_self _ _, hq⟩
    · simp [find_pending, hq] at h
      rcases ih h with ⟨hm, hp⟩
      exact ⟨List.mem_cons_of_mem _ hm, hp⟩

theorem remove_pending_pr_append (l₁ l₂ : List (PendingEntry P C)) (pr : P) :
    remove_pending_pr (l₁ ++ l₂) pr =
      remove_pending_pr l₁ pr ++ remove_pending_pr l₂ pr := by
  induction l₁ with
  | nil => rfl
  | cons p ps ih =>
    by_cases h : p.pr = pr <;> simp [remove_pending_pr, h, ih]

theorem remove_pending_pr_idem (l : List (PendingEntry P C)) (pr : P) :
    remove_pending_pr (remove_pending_pr l pr) pr = remove_pending_pr l pr := by
  induction l with
  | nil => rfl
  | cons p ps ih =>
    by_cases h : p.pr = pr <;> simp [remove_pending_pr, h, ih]

theorem filter_remove_pending_pr (l : List (PendingEntry P C)) (pr : P) :
    (remove_pending_pr l pr).filter (fun p => decide (p.pr = pr)) = [] := by
  induction l with
  | nil => rfl
  | cons p ps ih =>
    by_cases h : p.pr = pr <;> simp [remove_pending_pr, h, ih, List.filter]

/-- Whether every command in a list is something other than a UI status
notification. -/
def no_status : List (Cmd P C R) → Bool
  | [] => true
  | cmd :: cmds => !cmd.is_status && no_status cmds

/-- Unfolding of `handle_event` into the event's own handling followed by the
promotion rule, with the store operations of the promotion spelled out. -/
theorem handle_event_eq (remote : P → R) (db : Db P C) (event : Event P C) :
    handle_event remote db event =
      match (handle_event_core remote db event).1.running with
      | some _ => handle_event_core remote db event
      | none =>
        match (handle_event_core remote db event).1.queue with
        | [] => handle_event_core remote db event
        | next :: rest =>
          ({ queue := rest
             running := some ⟨next.pr, next.commit, none, next.message, false, false⟩
             pending := (handle_event_core remote db event).1.pending },
           (handle_event_core remote db event).2
             ++ [.merge_to_staging next.commit next.message (remote next.pr)]) := by
  unfold handle_event
  rcases h : handle_event_core remote db event with ⟨db1, cmds⟩
  rcases db1 with ⟨q, run, pend⟩
  cases run <;> cases q <;>
    simp [Db.peek_running, Db.pop_queue, Db.put_running]

/-- If the event's own handling leaves a running entry, no promotion happens:
`handle_event` returns exactly what the event's handling returned. -/
theorem handle_event_of_running_some (remote : P → R) (db : Db P C)
    (event : Event P C) (db' : Db P C) (cmds : List (Cmd P C R))
    (r' : RunningEntry P C)
    (hc : handle_event_core remote db event = (db', cmds))
    (hr : db'.running = some r') :
    handle_event remote db event = (db', cmds) := by
  rw [handle_event_eq, hc]
  simp [hr]

theorem built_implies_merge_cancel_by_pr (db : Db P C) (pr : P)
    (h : built_implies_merge db = true) :
    built_implies_merge (db.cancel_by_pr pr) = true := by
  rcases hr : db.running with _ | r
  · simp [built_implies_merge, Db.cancel_by_pr, hr]
  · simp only [built_implies_merge, hr] at h
    by_cases hp : r.pr = pr <;>
      simp [built_implies_merge, Db.cancel_by_pr, hr, hp, h]

theorem built_implies_merge_cancel_diff (db : Db P C) (pr : P) (commit : C)
    (h : built_implies_merge db = true) :
    built_implies_merge (db.cancel_by_pr_different_commit pr commit).1 = true := by
  rcases hr : db.running with _ | r
  · simp [built_implies_merge, Db.cancel_by_pr_different_commit, hr]
  · simp only [built_implies_merge, hr] at h
    by_cases hp : r.pr = pr ∧ ¬(r.pull_commit = commit) <;>
      simp [built_implies_merge, Db.cancel_by_pr_different_commit, hr, hp, h]

/-- The event's own handling preserves invariant I4: `built` is only ever set
in a branch where `merge_commit` is already `Some`, and no handler clears
`merge_commit` of an entry it puts back. -/
theorem built_implies_merge_core (remote : P → R) (db : Db P C)
    (event : Event P C) (h : built_implies_merge db = true) :
    built_implies_merge (handle_event_core remote db event).1 = true := by
  cases event with
  | Approved pr commit message =>
    simp only [handle_event_core]
    rcases commit with _ | rc <;>
      rcases hp : (db.peek_pending_by_pr pr).map (fun p => p.commit)
        with _ | cur <;>
      simp only [hp]
    · exact h
    · exact built_implies_merge_cancel_by_pr db pr h
    · exact built_implies_merge_cancel_by_pr db pr h
    · by_cases hrc : rc = cur
      · rw [if_neg (not_not_intro hrc)]
        exact built_implies_merge_cancel_by_pr db pr h
      · rw [if_pos hrc]
        exact h
  | Opened pr commit =>
    exact h
  | Changed pr commit =>
    simp only [handle_event_core]
    rcases hx : db.cancel_by_pr_different_commit pr commit with ⟨db1, canc⟩
    have hb := built_implies_merge_cancel_diff db pr commit h
    rw [hx] at hb
    simp only []
    exact hb
  | Closed pr =>
    exact built_implies_merge_cancel_by_pr _ pr h
  | Canceled pr =>
    exact built_implies_merge_cancel_by_pr db pr h
  | MergedToStaging pull merge =>
    rcases hr : db.running with _ | r <;>
      simp only [handle_event_core, Db.take_running, hr]
    · simp [built_implies_merge]
    · split_ifs <;> simp [built_implies_merge, Db.put_running]
  | FailedMergeToStaging pull =>
    rcases hr : db.running with _ | r <;>
      simp only [handle_event_core, Db.take_running, hr]
    · simp [built_implies_merge]
    · split_ifs <;> simp [built_implies_merge]
  | BuildStarted c url =>
    rcases hr : db.running with _ | r <;>
      simp only [handle_event_core, Db.peek_running, hr]
    · exact h
    · rcases hm : r.merge_commit with _ | mc <;> simp only [hm]
      · exact h
      · split_ifs <;> exact h
  | BuildFailed c url =>
    rcases hr : db.running with _ | r <;>
      simp only [handle_event_core, Db.take_running, hr]
    · simp [built_implies_merge]
    · rcases hm : r.merge_commit with _ | mc <;> simp only [hm]
      · simp [built_implies_merge]
      · split_ifs <;> simp [built_implies_merge, Db.put_running, hm]
  | BuildSucceeded c url =>
    rcases hr : db.running with _ | r <;>
      simp only [handle_event_core, Db.take_running, hr]
    · simp [built_implies_merge]
    · rcases hm : r.merge_commit with _ | mc <;> simp only [hm]
      · simp [built_implies_merge]
      · split_ifs <;> simp [built_implies_merge, Db.put_running, hm]
  | FailedMoveToMaster c =>
    rcases hr : db.running with _ | r <;>
      simp only [handle_event_core, Db.take_running, hr]
    · simp [built_implies_merge]
    · rcases hm : r.merge_commit with _ | mc <;> simp only [hm]
      · simp [built_implies_merge]
      · split_ifs <;> simp [built_implies_merge]
  | MovedToMaster c =>
    rcases hr : db.running with _ | r <;>
      simp only [handle_event_core, Db.take_running, hr]
    · simp [built_implies_merge]
    · rcases hm : r.merge_commit with _ | mc <;> simp only [hm]
      · simp [built_implies_merge]
      · split_ifs <;> simp [built_implies_merge]

/-! ### Claim theorems -/

/-- C1: the claim that stale events never mutate the store fails on the code.
At the concrete store whose running entry has pull commit `0`, handling a
`MergedToStaging` event whose pull commit `1` mismatches takes the running
entry, logs, and never puts it back: the store's running slot is left empty
(not "in place" as claimed), with no command emitted. -/
theorem c1_wrong_commit_drops_running :
    handle_event (fun n : Nat => n)
      (⟨[], some ⟨0, 0, none, "m", false, false⟩, []⟩ : Db Nat Nat)
      (Event.MergedToStaging 1 2)
      = (⟨[], none, []⟩, []) := by decide

/-- C6: if the pending set holds an entry for `pr` with commit `c1`, an
`Approved` event for `pr` carrying a different reviewed commit `c2` makes the
Approved arm emit `Invalidated` and leave the whole store untouched: no
`cancel_by_pr`, no enqueue. -/
theorem c6_stale_approval (remote : P → R) (db : Db P C)
    (pr : P) (pe : PendingEntry P C) (c1 c2 : C) (message : String)
    (hp : db.peek_pending_by_pr pr = some pe) (hc1 : pe.commit = c1)
    (hne : ¬(c2 = c1)) :
    handle_event_core remote db (.Approved pr (some c2) message) =
      (db, [.send_result pr .Invalidated]) := by
  simp only [handle_event_core, hp, Option.map_some', hc1]
  simp [hne]

/-- C6 witness: the theorem applied at a concrete store with pending commit
`4` and a mismatching reviewed commit `5`. -/
theorem c6_stale_approval_witness :
    handle_event_core (fun n : Nat => n)
      (⟨[], none, [⟨1, 4⟩]⟩ : Db Nat Nat)
      (.Approved 1 (some 5) "msg")
      = (⟨[], none, [⟨1, 4⟩]⟩, [.send_result 1 .Invalidated]) :=
  c6_stale_approval (fun n : Nat => n) ⟨[], none, [⟨1, 4⟩]⟩ 1 ⟨1, 4⟩ 4 5 "msg"
    (by decide) (by decide) (by decide)

/-- C9: `add_pending` has replace semantics.  For the persistent store's
delete-then-insert `add_pending`, calling it twice in a row equals calling it
once, and afterwards the pending set holds exactly one entry for `entry.pr`,
namely `entry` itself; the in-memory store's `add_pending` is likewise
idempotent. -/
theorem c9_add_pending_idempotent (db : Db P C) (entry : PendingEntry P C)
    (l : List (PendingEntry P C)) :
    (db.add_pending entry).add_pending entry = db.add_pending entry
    ∧ (db.add_pending entry).pending.filter (fun p => decide (p.pr = entry.pr))
        = [entry]
    ∧ mem_add_pending (mem_add_pending l entry) entry = mem_add_pending l entry := by
  refine ⟨?_, ?_, ?_⟩
  · simp [Db.add_pending, remove_pending_pr_append, remove_pending_pr_idem,
      remove_pending_pr]
  · simp [Db.add_pending, List.filter_append, filter_remove_pending_pr,
      List.filter]
  · induction l with
    | nil => simp [mem_add_pending]
    | cons p ps ih =>
      by_cases h : p.pr = entry.pr <;> simp [mem_add_pending, h, ih]

/-- C10: under invariant I4 (`built` implies `merge_commit` set), the
already-built warning branch of the `FailedMergeToStaging` arm is
unreachable: its guard — pull commit matching, `merge_commit` unset, `built`
set — is unsatisfiable, because `merge_commit.is_some()` is tested before
`built`. -/
theorem c10_built_warn_unreachable (db : Db P C) (pull_commit : C)
    (h : built_implies_merge db = true) :
    failed_merge_built_branch db pull_commit = false := by
  rcases hr : db.running with _ | r
  · simp [failed_merge_built_branch, hr]
  · simp only [built_implies_merge, hr] at h
    rcases hb : r.built with _ | _
    · simp [failed_merge_built_branch, hr, hb]
    · simp [hb] at h
      simp [failed_merge_built_branch, hr, h]

/-- C10 witness: the theorem applied at a concrete store satisfying I4. -/
theorem c10_built_warn_unreachable_witness :
    built_implies_merge (⟨[], some ⟨1, 7, none, "m", false, false⟩, []⟩ : Db Nat Nat) = true
    ∧ failed_merge_built_branch
        (⟨[], some ⟨1, 7, none, "m", false, false⟩, []⟩ : Db Nat Nat) 7 = false :=
  ⟨by decide,
   c10_built_warn_unreachable ⟨[], some ⟨1, 7, none, "m", false, false⟩, []⟩ 7
     (by decide)⟩

/-- C2: after any event, the queue is never non-empty while the running slot
is empty; and whenever the event's own handling leaves the running slot empty
and the queue non-empty, the head is popped, `merge_to_staging` with the
head's commit, message and remote is emitted after the event's own commands,
and the head becomes the running entry with `merge_commit` unset,
`canceled = false`, `built = false`. -/
theorem c2_promotion (remote : P → R) (db : Db P C) (event : Event P C) :
    ((handle_event remote db event).1.queue = []
      ∨ (handle_event remote db event).1.running.isSome = true)
    ∧ (∀ next rest,
        (handle_event_core remote db event).1.running = none →
        (handle_event_core remote db event).1.queue = next :: rest →
        (handle_event remote db event).1.running =
            some ⟨next.pr, next.commit, none, next.message, false, false⟩
          ∧ (handle_event remote db event).1.queue = rest
          ∧ (handle_event remote db event).2 =
              (handle_event_core remote db event).2
                ++ [.merge_to_staging next.commit next.message (remote next.pr)]) := by
  rw [handle_event_eq]
  constructor
  · rcases hrun : (handle_event_core remote db event).1.running with _ | r
    · rcases hq : (handle_event_core remote db event).1.queue with _ | ⟨next, rest⟩
      · simp [hrun, hq]
      · simp [hrun, hq]
    · simp [hrun]
  · intro next rest hrun hq
    simp [hrun, hq]

/-- C2 witness: applied at a concrete store with two queued entries, no
running entry, and a `Canceled` event for an unrelated PR: the head is
promoted, the other entry stays queued, and the staging-merge command for the
head is emitted. -/
theorem c2_promotion_witness :
    ((handle_event (fun n : Nat => n)
        (⟨[⟨1, 2, "a"⟩, ⟨3, 4, "b"⟩], none, []⟩ : Db Nat Nat)
        (.Canceled 9)).1.running.isSome = true)
    ∧ (handle_event (fun n : Nat => n)
        (⟨[⟨1, 2, "a"⟩, ⟨3, 4, "b"⟩], none, []⟩ : Db Nat Nat)
        (.Canceled 9)).1.running = some ⟨1, 2, none, "a", false, false⟩
    ∧ (handle_event (fun n : Nat => n)
        (⟨[⟨1, 2, "a"⟩, ⟨3, 4, "b"⟩], none, []⟩ : Db Nat Nat)
        (.Canceled 9)).1.queue = [⟨3, 4, "b"⟩]
    ∧ (handle_event (fun n : Nat => n)
        (⟨[⟨1, 2, "a"⟩, ⟨3, 4, "b"⟩], none, []⟩ : Db Nat Nat)
        (.Canceled 9)).2 =
        [] ++ [.merge_to_staging 2 "a" ((fun n : Nat => n) 1)] := by
  have h := c2_promotion (fun n : Nat => n)
    (⟨[⟨1, 2, "a"⟩, ⟨3, 4, "b"⟩], none, []⟩ : Db Nat Nat) (.Canceled 9)
  have h2 := h.2 ⟨1, 2, "a"⟩ [⟨3, 4, "b"⟩] (by decide) (by decide)
  refine ⟨?_, h2.1, h2.2.1, ?_⟩
  · rw [h2.1]
    rfl
  · rw [h2.2.2]
    rfl

/-- C8: with a running entry present, a `BuildStarted` event leaves the whole
store unchanged (the handler only peeks), and the UI receives `Testing` with
the pull commit, the matching merge commit and the url exactly when the
running entry's merge commit equals the built commit and the entry is neither
canceled nor built. -/
theorem c8_build_started_frame (remote : P → R) (db : Db P C)
    (r : RunningEntry P C) (c : C) (url : Option String)
    (h : db.running = some r) :
    (handle_event remote db (.BuildStarted c url)).1 = db
    ∧ (handle_event remote db (.BuildStarted c url)).2 =
        (if r.merge_commit = some c ∧ r.canceled = false ∧ r.built = false
         then [.send_result r.pr (.Testing r.pull_commit c url)]
         else []) := by
  have hcore : ∀ cmds, handle_event_core remote db (.BuildStarted c url) = (db, cmds) →
      handle_event remote db (.BuildStarted c url) = (db, cmds) := by
    intro cmds hc
    rw [handle_event_eq, hc]
    simp [h]
  rcases hm : r.merge_commit with _ | m
  · have hc : handle_event_core remote db (.BuildStarted c url) = (db, []) := by
      simp [handle_event_core, Db.peek_running, h, hm]
    rw [hcore [] hc]
    simp [hm]
  · by_cases hmc : m = c
    · by_cases hcanc : r.canceled = true
      · have hc : handle_event_core remote db (.BuildStarted c url) = (db, []) := by
          simp [handle_event_core, Db.peek_running, h, hm, hmc, hcanc]
        rw [hcore [] hc]
        simp [hm, hmc, hcanc]
      · by_cases hbuilt : r.built = true
        · have hc : handle_event_core remote db (.BuildStarted c url) = (db, []) := by
            simp [handle_event_core, Db.peek_running, h, hm, hmc, hcanc, hbuilt]
          rw [hcore [] hc]
          simp [hm, hmc, hbuilt]
        · have hc : handle_event_core remote db (.BuildStarted c url) =
              (db, [.send_result r.pr (.Testing r.pull_commit c url)]) := by
            simp [handle_event_core, Db.peek_running, h, hm, hmc, hcanc, hbuilt]
          rw [hcore _ hc]
          simp only [Bool.not_eq_true] at hcanc hbuilt
          simp [hm, hmc, hcanc, hbuilt]
    · have hc : handle_event_core remote db (.BuildStarted c url) = (db, []) := by
        simp [handle_event_core, Db.peek_running, h, hm, hmc]
      rw [hcore [] hc]
      simp [hm, hmc]

/-- C8 witness: applied at a concrete store whose running entry has merge
commit `6` and is neither canceled nor built, for `BuildStarted 6`. -/
theorem c8_build_started_frame_witness :
    (handle_event (fun n : Nat => n)
        (⟨[], some ⟨1, 5, some 6, "m", false, false⟩, []⟩ : Db Nat Nat)
        (.BuildStarted 6 none)).1
      = (⟨[], some ⟨1, 5, some 6, "m", false, false⟩, []⟩ : Db Nat Nat)
    ∧ (handle_event (fun n : Nat => n)
        (⟨[], some ⟨1, 5, some 6, "m", false, false⟩, []⟩ : Db Nat Nat)
        (.BuildStarted 6 none)).2
      = [.send_result 1 (.Testing 5 6 none)] := by
  have h := c8_build_started_frame (fun n : Nat => n)
    (⟨[], some ⟨1, 5, some 6, "m", false, false⟩, []⟩ : Db Nat Nat)
    ⟨1, 5, some 6, "m", false, false⟩ 6 none rfl
  refine ⟨h.1, ?_⟩
  rw [h.2]
  rfl

/-- C7: handling any event preserves invariant I4, that a `built` running
entry has its `merge_commit` set: `built` is only set to true in the
`BuildSucceeded` branch where `merge_commit` is already `Some`, and every
newly promoted running entry starts with `built = false` and
`merge_commit = None`. -/
theorem c7_merge_monotonic (remote : P → R) (db : Db P C) (event : Event P C)
    (h : built_implies_merge db = true) :
    built_implies_merge (handle_event remote db event).1 = true := by
  rw [handle_event_eq]
  have hcore := built_implies_merge_core remote db event h
  rcases hrun : (handle_event_core remote db event).1.running with _ | r
  · rcases hq : (handle_event_core remote db event).1.queue with _ | ⟨next, rest⟩
    · simpa [hrun, hq] using hcore
    · simp [hrun, hq, built_implies_merge]
  · simpa [hrun] using hcore

/-- C7 witness: applied at a concrete store satisfying I4 and a
`BuildSucceeded` event, after which the entry is built with `merge_commit`
still set. -/
theorem c7_merge_monotonic_witness :
    built_implies_merge
        (⟨[], some ⟨1, 5, some 6, "m", false, false⟩, []⟩ : Db Nat Nat) = true
    ∧ built_implies_merge
        (handle_event (fun n : Nat => n)
          (⟨[], some ⟨1, 5, some 6, "m", false, false⟩, []⟩ : Db Nat Nat)
          (.BuildSucceeded 6 none)).1 = true :=
  ⟨by decide,
   c7_merge_monotonic (fun n : Nat => n)
     ⟨[], some ⟨1, 5, some 6, "m", false, false⟩, []⟩
     (.BuildSucceeded 6 none) (by decide)⟩

/-- C3: when the running entry is canceled, any VCS or CI event addressed to
it is silently absorbed: the event's own handling emits no command at all —
in particular no status notification and no outbound command for that entry —
and the full `handle_event` output contains no status notification (its only
possible command is the promotion's staging-merge for the next queue head). -/
theorem c3_canceled_silent (remote : P → R) (db : Db P C)
    (r : RunningEntry P C) (event : Event P C)
    (hr : db.running = some r) (hc : r.canceled = true)
    (he : addressed_to r event) :
    (handle_event_core remote db event).2 = []
    ∧ no_status (handle_event remote db event).2 = true := by
  have h1 : (handle_event_core remote db event).2 = [] := by
    cases event with
    | Approved pr commit message => exact he.elim
    | Opened pr commit => exact he.elim
    | Changed pr commit => exact he.elim
    | Closed pr => exact he.elim
    | Canceled pr => exact he.elim
    | MergedToStaging pull merge =>
      simp only [handle_event_core, Db.take_running, hr]
      split_ifs <;> simp_all
    | FailedMergeToStaging pull =>
      simp only [handle_event_core, Db.take_running, hr]
      split_ifs <;> simp_all
    | BuildStarted c url =>
      simp only [handle_event_core, Db.peek_running, hr]
      rcases hm : r.merge_commit with _ | mc
      · simp [hm]
      · simp only [hm]
        split_ifs <;> simp_all
    | BuildFailed c url =>
      simp only [handle_event_core, Db.take_running, hr]
      rcases hm : r.merge_commit with _ | mc
      · simp [hm]
      · simp only [hm]
        split_ifs <;> simp_all
    | BuildSucceeded c url =>
      simp only [handle_event_core, Db.take_running, hr]
      rcases hm : r.merge_commit with _ | mc
      · simp [hm]
      · simp only [hm]
        split_ifs <;> simp_all
    | FailedMoveToMaster c =>
      simp only [handle_event_core, Db.take_running, hr]
      rcases hm : r.merge_commit with _ | mc
      · simp [hm]
      · simp only [hm]
        split_ifs <;> simp_all
    | MovedToMaster c =>
      simp only [handle_event_core, Db.take_running, hr]
      rcases hm : r.merge_commit with _ | mc
      · simp [hm]
      · simp only [hm]
        split_ifs <;> simp_all
  refine ⟨h1, ?_⟩
  rw [handle_event_eq]
  rcases hrun : (handle_event_core remote db event).1.running with _ | rr
  · rcases hq : (handle_event_core remote db event).1.queue with _ | ⟨next, rest⟩
    · simp [hrun, hq, h1, no_status]
    · simp [hrun, hq, h1, no_status, Cmd.is_status]
  · simp [hrun, h1, no_status]

/-- C3 witness: applied at a concrete store whose running entry is canceled,
for a `BuildSucceeded` event matching its merge commit. -/
theorem c3_canceled_silent_witness :
    (handle_event_core (fun n : Nat => n)
        (⟨[], some ⟨0, 1, some 2, "m", true, false⟩, []⟩ : Db Nat Nat)
        (.BuildSucceeded 2 none)).2 = []
    ∧ no_status
        (handle_event (fun n : Nat => n)
          (⟨[], some ⟨0, 1, some 2, "m", true, false⟩, []⟩ : Db Nat Nat)
          (.BuildSucceeded 2 none)).2 = true :=
  c3_canceled_silent (fun n : Nat => n)
    ⟨[], some ⟨0, 1, some 2, "m", true, false⟩, []⟩
    ⟨0, 1, some 2, "m", true, false⟩ (.BuildSucceeded 2 none) rfl rfl rfl

/-- C4: on a non-canceled, not-yet-built running entry whose merge commit is
`c`, `BuildSucceeded c` emits `move_staging_to_master` and `Success` exactly
once and puts the entry back with `built = true`; a second `BuildSucceeded c`
on the resulting store emits nothing and leaves the store exactly as it was
(entry put back unchanged, still built), so `Success` is emitted at most
once. -/
theorem c4_build_succeeded_once (remote : P → R) (db : Db P C)
    (r : RunningEntry P C) (c : C) (u u' : Option String)
    (hr : db.running = some r) (hc : r.canceled = false)
    (hm : r.merge_commit = some c) (hb : r.built = false) :
    (handle_event remote db (.BuildSucceeded c u)).2 =
      [.move_staging_to_master c,
       .send_result r.pr (.Success r.pull_commit c u)]
    ∧ (handle_event remote db (.BuildSucceeded c u)).1.running =
        some { r with built := true }
    ∧ handle_event remote (handle_event remote db (.BuildSucceeded c u)).1
        (.BuildSucceeded c u') =
        ((handle_event remote db (.BuildSucceeded c u)).1, []) := by
  have hcore1 : handle_event_core remote db (.BuildSucceeded c u) =
      ({ db with running := some { r with built := true } },
       [.move_staging_to_master c,
        .send_result r.pr (.Success r.pull_commit c u)]) := by
    simp [handle_event_core, Db.take_running, Db.put_running, hr, hm, hc, hb]
  have h1 := handle_event_of_running_some remote db (.BuildSucceeded c u)
    _ _ { r with built := true } hcore1 rfl
  have hcore2 : handle_event_core remote
      ({ db with running := some { r with built := true } } : Db P C)
      (.BuildSucceeded c u') =
      ({ db with running := some { r with built := true } }, []) := by
    simp [handle_event_core, Db.take_running, Db.put_running, hm, hc]
  have h2 := handle_event_of_running_some remote
    ({ db with running := some { r with built := true } } : Db P C)
    (.BuildSucceeded c u') _ _ { r with built := true } hcore2 rfl
  refine ⟨?_, ?_, ?_⟩
  · rw [h1]
  · rw [h1]
  · rw [h1]
    exact h2

/-- C4 witness: applied at a concrete store with a running entry whose merge
commit is `6`, handling `BuildSucceeded 6` twice. -/
theorem c4_build_succeeded_once_witness :
    (handle_event (fun n : Nat => n)
        (⟨[], some ⟨1, 5, some 6, "m", false, false⟩, []⟩ : Db Nat Nat)
        (.BuildSucceeded 6 none)).2 =
      [.move_staging_to_master 6, .send_result 1 (.Success 5 6 none)]
    ∧ (handle_event (fun n : Nat => n)
        (⟨[], some ⟨1, 5, some 6, "m", false, false⟩, []⟩ : Db Nat Nat)
        (.BuildSucceeded 6 none)).1.running =
        some ⟨1, 5, some 6, "m", false, true⟩
    ∧ handle_event (fun n : Nat => n)
        (handle_event (fun n : Nat => n)
          (⟨[], some ⟨1, 5, some 6, "m", false, false⟩, []⟩ : Db Nat Nat)
          (.BuildSucceeded 6 none)).1
        (.BuildSucceeded 6 (some "url")) =
        ((handle_event (fun n : Nat => n)
          (⟨[], some ⟨1, 5, some 6, "m", false, false⟩, []⟩ : Db Nat Nat)
          (.BuildSucceeded 6 none)).1, []) :=
  c4_build_succeeded_once (fun n : Nat => n)
    ⟨[], some ⟨1, 5, some 6, "m", false, false⟩, []⟩
    ⟨1, 5, some 6, "m", false, false⟩ 6 none (some "url")
    rfl rfl rfl rfl

/-- C5: a second `Approved` for the PR of the running entry (with an
effective commit `c2`) cancels the earlier attempt — the running entry gets
`canceled = true` and every queue entry of that PR is removed — and the new
queue entry with commit `c2` is appended at the tail, not at any former
position. -/
theorem c5_supersede_approval (remote : P → R) (db : Db P C)
    (r : RunningEntry P C) (pr : P) (c2 : C) (message : String)
    (hr : db.running = some r) (hpr : r.pr = pr)
    (hp : ∀ p ∈ db.pending, p.pr = pr → p.commit = c2) :
    (handle_event remote db (.Approved pr (some c2) message)).1.running =
      some { r with canceled := true }
    ∧ (handle_event remote db (.Approved pr (some c2) message)).1.queue =
        remove_queue_pr db.queue pr ++ [⟨pr, c2, message⟩]
    ∧ queue_has_pr (remove_queue_pr db.queue pr) pr = false := by
  have hcore : handle_event_core remote db (.Approved pr (some c2) message) =
      ((db.cancel_by_pr pr).push_queue ⟨pr, c2, message⟩, []) := by
    simp only [handle_event_core]
    rcases hp2 : db.peek_pending_by_pr pr with _ | p
    · simp [hp2]
    · have hmem := find_pending_some hp2
      have hpc : p.commit = c2 := hp p hmem.1 hmem.2
      simp [hp2, hpc]
  have hrun : ((db.cancel_by_pr pr).push_queue ⟨pr, c2, message⟩).running =
      some { r with canceled := true } := by
    simp [Db.cancel_by_pr, Db.push_queue, hr, hpr]
  have h1 := handle_event_of_running_some remote db
    (.Approved pr (some c2) message) _ _ { r with canceled := true }
    hcore hrun
  refine ⟨?_, ?_, remove_queue_pr_no_pr db.queue pr⟩
  · rw [h1]
    exact hrun
  · rw [h1]
    simp [Db.cancel_by_pr, Db.push_queue]

/-- C5 witness: applied at a concrete store whose running entry and one of
two queued entries belong to PR `1`: the PR-1 queue entry is evicted, the
running entry is canceled, and the new commit is appended after the PR-3
entry. -/
theorem c5_supersede_approval_witness :
    (handle_event (fun n : Nat => n)
        (⟨[⟨1, 2, "a"⟩, ⟨3, 4, "b"⟩], some ⟨1, 2, none, "a", false, false⟩, []⟩ : Db Nat Nat)
        (.Approved 1 (some 9) "new")).1.running =
      some ⟨1, 2, none, "a", true, false⟩
    ∧ (handle_event (fun n : Nat => n)
        (⟨[⟨1, 2, "a"⟩, ⟨3, 4, "b"⟩], some ⟨1, 2, none, "a", false, false⟩, []⟩ : Db Nat Nat)
        (.Approved 1 (some 9) "new")).1.queue =
        [⟨3, 4, "b"⟩] ++ [⟨1, 9, "new"⟩]
    ∧ queue_has_pr
        (remove_queue_pr
          ([⟨1, 2, "a"⟩, ⟨3, 4, "b"⟩] : List (QueueEntry Nat Nat)) 1) 1 = false := by
  have h := c5_supersede_approval (fun n : Nat => n)
    ⟨[⟨1, 2, "a"⟩, ⟨3, 4, "b"⟩], some ⟨1, 2, none, "a", false, false⟩, []⟩
    ⟨1, 2, none, "a", false, false⟩ 1 9 "new" rfl rfl
    (by intro p hmem; cases hmem)
  refine ⟨h.1, ?_, h.2.2⟩
  rw [h.2.1]
  rfl

end Aelita
